import Mathlib

/-!
Shallow embedding of the sandboxed code-execution engine
(`CodeExecutor` / `SimpleSandbox` in `src/execution/sandbox.ts`).

Pure data transformations (argument rendering, log capture, the shape of
the outcome message posted by the wrapped program) are translated directly
from the source.  The asynchronous parts (worker lifecycle, the
timeout/message/error/exit race inside `executeInWorker`, and the
`try`/`catch` of `execute`) are embedded as an explicit state machine over
the chronological sequence of events the parent observes, with promise
settlement modelled as first-settle-wins, exactly as JavaScript promises
behave.
-/

namespace Pendo

/-- A JavaScript value, as far as the sandbox's log rendering is concerned.
Numbers are modelled as integers (the fragments the engine runs log strings,
integers, booleans, objects and arrays). -/
inductive JsValue where
  | str (s : String)
  | num (n : Int)
  | boolean (b : Bool)
  | nullV
  | undef
  | obj (fields : List (String × JsValue))
  | arr (elems : List JsValue)

/-- One character of JSON string escaping, as `JSON.stringify` performs it
for the characters that can appear in the values modelled here. -/
def jsonEscapeChar (c : Char) : String :=
  if c = '"' then "\\\""
  else if c = '\\' then "\\\\"
  else if c = '\n' then "\\n"
  else if c = '\t' then "\\t"
  else if c = '\r' then "\\r"
  else String.singleton c

/-- JSON string escaping. -/
def jsonEscape (s : String) : String :=
  String.join (s.data.map jsonEscapeChar)

mutual

/-- `JSON.stringify`, as applied by the wrapped code's console override to
arguments whose `typeof` is `'object'`.  `undef` only reaches this function
inside an array, where `JSON.stringify` renders `undefined` as `null`;
object fields with `undefined` values are dropped, as in JavaScript. -/
def jsonStringify : JsValue → String
  | .str s => "\"" ++ jsonEscape s ++ "\""
  | .num n => toString n
  | .boolean b => if b then "true" else "false"
  | .nullV => "null"
  | .undef => "null"
  | .obj fs => "\x7b" ++ String.intercalate "," (jsonFields fs) ++ "\x7d"
  | .arr es => "[" ++ String.intercalate "," (jsonElems es) ++ "]"

/-- Rendered `"key":value` members of a JSON object (`undefined` members
are omitted, as `JSON.stringify` does). -/
def jsonFields : List (String × JsValue) → List String
  | [] => []
  | (_, .undef) :: rest => jsonFields rest
  | (k, v) :: rest =>
      ("\"" ++ jsonEscape k ++ "\":" ++ jsonStringify v) :: jsonFields rest

/-- Rendered elements of a JSON array. -/
def jsonElems : List JsValue → List String
  | [] => []
  | v :: rest => jsonStringify v :: jsonElems rest

end

mutual

/-- JavaScript `String(x)`, as applied by the console override to arguments
whose `typeof` is not `'object'` (and, recursively, by array `toString`). -/
def jsToString : JsValue → String
  | .str s => s
  | .num n => toString n
  | .boolean b => if b then "true" else "false"
  | .nullV => "null"
  | .undef => "undefined"
  | .obj _ => "[object Object]"
  | .arr es => String.intercalate "," (jsElemToStringList es)

/-- Array elements under `Array.prototype.toString`: `null` and `undefined`
render as the empty string, everything else via `String(x)`. -/
def jsElemToStringList : List JsValue → List String
  | [] => []
  | .nullV :: rest => "" :: jsElemToStringList rest
  | .undef :: rest => "" :: jsElemToStringList rest
  | v :: rest => jsToString v :: jsElemToStringList rest

end

/-- JavaScript `typeof v === 'object'` (true for objects, arrays and
`null`). -/
def typeofIsObject : JsValue → Bool
  | .nullV => true
  | .obj _ => true
  | .arr _ => true
  | _ => false

/-- Rendering of one console argument, from the wrapper template in
`CodeExecutor.wrapCode` (and identically in `SimpleSandbox.execute`):
`typeof arg === 'object' ? JSON.stringify(arg) : String(arg)`. -/
def renderArg (v : JsValue) : String :=
  if typeofIsObject v then jsonStringify v else jsToString v

/-- Rendering of one console call's argument list: each argument rendered,
then joined by a single space (`args.map(...).join(' ')`). -/
def renderArgs (args : List JsValue) : String :=
  String.intercalate " " (args.map renderArg)

/-- One console call made by the executed fragment, on one of the three
intercepted channels. -/
inductive ConsoleEvent where
  | log (args : List JsValue)
  | error (args : List JsValue)
  | warn (args : List JsValue)

/-- The argument list of a console call. -/
def ConsoleEvent.args : ConsoleEvent → List JsValue
  | .log a => a
  | .error a => a
  | .warn a => a

/-- The log line captured for one console call by the worker-tier wrapper
(`CodeExecutor.wrapCode`): `console.log` lines are pushed verbatim,
`console.error` lines with an `"ERROR: "` prefix, `console.warn` lines with
a `"WARN: "` prefix. -/
def workerCapture : ConsoleEvent → String
  | .log args => renderArgs args
  | .error args => "ERROR: " ++ renderArgs args
  | .warn args => "WARN: " ++ renderArgs args

/-- The log line captured for one console call by the weak tier
(`SimpleSandbox.execute`): all three channels are wired to the same
`captureLog`, so every channel is captured identically with no prefix. -/
def simpleCapture : ConsoleEvent → String
  | .log args => renderArgs args
  | .error args => renderArgs args
  | .warn args => renderArgs args

/-- How the executed fragment terminates: it runs to the end of the user
code, it throws an `Error` (with a message and a stack trace), or it never
returns control. -/
inductive Termination where
  | completes
  | throws (message stack : String)
  | hangs

/-- The observable behaviour of one code fragment: the console calls it
makes, in emission order, followed by how it terminates. -/
structure Fragment where
  events : List ConsoleEvent
  termination : Termination

/-- The ordered log buffer accumulated by the wrapper's console overrides
by the time the fragment terminates. -/
def wrapCodeLogs (f : Fragment) : List String :=
  f.events.map workerCapture

/-- The outcome message a worker posts via `parentPort.postMessage`.
Success messages carry `output: null` and a heap delta; error messages
carry `error: message + '\n' + stack` and no `output`/`memoryUsed` field. -/
structure WorkerMessage where
  success : Bool
  output : Option JsValue
  error : Option String
  logs : List String
  memoryUsed : Option Int

/-- What the wrapped program does before its worker goes away: post one
outcome message, or post nothing (a fragment that never returns control). -/
inductive WorkerReport where
  | posts (msg : WorkerMessage)
  | silent

/-- Behaviour of the program text produced by `CodeExecutor.wrapCode`, run
inside a worker: on normal completion it posts
`{success: true, output: null, logs, memoryUsed: after - before}`; on a
thrown error it posts `{success: false, error: message + '\n' + stack,
logs}`; a fragment that hangs posts nothing. -/
def runWrapped (f : Fragment) (memBefore memAfter : Int) : WorkerReport :=
  match f.termination with
  | .completes =>
      .posts { success := true, output := some .nullV, error := none,
               logs := wrapCodeLogs f, memoryUsed := some (memAfter - memBefore) }
  | .throws m st =>
      .posts { success := false, output := none,
               error := some (m ++ "\n" ++ st),
               logs := wrapCodeLogs f, memoryUsed := none }
  | .hangs => .silent

/-- A platform error object: all the engine reads from one is `.message`. -/
structure JsError where
  message : String

/-- The error manufactured by the timeout callback in
`CodeExecutor.executeInWorker`. -/
def timeoutError (t : Nat) : JsError :=
  ⟨"Execution timeout after " ++ toString t ++ "ms"⟩

/-- The error manufactured by the `exit` handler for a non-zero exit code. -/
def exitCodeError (c : Nat) : JsError :=
  ⟨"Worker stopped with exit code " ++ toString c⟩

/-- One event the parent can observe for a launched worker: the worker
posts a message, the worker raises an environment-level error, the worker
exits with a status code, or the deadline timer fires. -/
inductive WorkerEvent where
  | message (m : WorkerMessage)
  | errored (e : JsError)
  | exited (code : Nat)
  | timerFired

/-- The state of the promise returned by `CodeExecutor.executeInWorker`
together with the worker's lifecycle: `settled` is the first resolution or
rejection (later settlement attempts are ignored, as for a JavaScript
promise), `timerActive` tracks whether the deadline timer is still pending,
`terminateCalled` whether the code called `worker.terminate()`, and
`workerStopped` whether the worker thread has stopped running. -/
structure RaceState where
  settled : Option (Except JsError WorkerMessage)
  timerActive : Bool
  terminateCalled : Bool
  workerStopped : Bool

/-- Settle the promise with outcome `o` if it is not settled yet;
a second resolution or rejection is a no-op. -/
def settleWith (o : Except JsError WorkerMessage) (st : RaceState) : RaceState :=
  match st.settled with
  | some _ => st
  | none => { st with settled := some o }

/-- JavaScript truthiness of `options.timeout`: the timer is only installed
when `if (options.timeout)` holds, so a missing or zero timeout installs no
timer. -/
def timeoutSet : Option Nat → Bool
  | some t => t != 0
  | none => false

/-- One observed event, applied to the race state.  Translated from the
handlers in `CodeExecutor.executeInWorker`:
* `message`: `clearTimeout`, `worker.terminate()`, resolve with the message;
* `errored`: `clearTimeout`, reject with the error (no explicit terminate —
  the platform has already terminated a worker that threw an uncaught
  exception, so `workerStopped` is set by the environment's semantics);
* `exited c`: `clearTimeout`; reject with an exit-code error when `c ≠ 0`
  (the worker has stopped by definition of the event);
* `timerFired`: only possible while the timer is pending —
  `worker.terminate()` then reject with the timeout error. -/
def raceStep (timeout : Option Nat) (st : RaceState) (ev : WorkerEvent) : RaceState :=
  match ev with
  | .message m =>
      settleWith (.ok m)
        { st with timerActive := false, terminateCalled := true, workerStopped := true }
  | .errored e =>
      settleWith (.error e) { st with timerActive := false, workerStopped := true }
  | .exited c =>
      if c ≠ 0 then
        settleWith (.error (exitCodeError c))
          { st with timerActive := false, workerStopped := true }
      else
        { st with timerActive := false, workerStopped := true }
  | .timerFired =>
      if st.timerActive then
        match timeout with
        | some t =>
            settleWith (.error (timeoutError t))
              { st with timerActive := false, terminateCalled := true, workerStopped := true }
        | none => st
      else st

/-- Reduction of `raceStep` on a `message` event. -/
theorem raceStep_message (timeout : Option Nat) (st : RaceState) (m : WorkerMessage) :
    raceStep timeout st (.message m) =
      settleWith (.ok m)
        { st with timerActive := false, terminateCalled := true, workerStopped := true } := rfl

/-- Reduction of `raceStep` on an `errored` event. -/
theorem raceStep_errored (timeout : Option Nat) (st : RaceState) (e : JsError) :
    raceStep timeout st (.errored e) =
      settleWith (.error e) { st with timerActive := false, workerStopped := true } := rfl

/-- Reduction of `raceStep` on an `exited` event. -/
theorem raceStep_exited (timeout : Option Nat) (st : RaceState) (c : Nat) :
    raceStep timeout st (.exited c) =
      if c ≠ 0 then
        settleWith (.error (exitCodeError c))
          { st with timerActive := false, workerStopped := true }
      else
        { st with timerActive := false, workerStopped := true } := rfl

/-- Reduction of `raceStep` on a `timerFired` event. -/
theorem raceStep_timerFired (timeout : Option Nat) (st : RaceState) :
    raceStep timeout st .timerFired =
      (if st.timerActive then
        match timeout with
        | some t =>
            settleWith (.error (timeoutError t))
              { st with timerActive := false, terminateCalled := true, workerStopped := true }
        | none => st
      else st) := rfl

/-- The race state before any event: nothing settled, the timer pending
exactly when a truthy timeout was configured, the worker running. -/
def raceInit (timeout : Option Nat) : RaceState :=
  { settled := none, timerActive := timeoutSet timeout,
    terminateCalled := false, workerStopped := false }

/-- `CodeExecutor.executeInWorker`: the promise and worker lifecycle after
the chronological sequence of observed events.  (The `logs` array the
source passes into this method is never touched by it; see
`CodeExecutor.execute` below.) -/
def CodeExecutor.executeInWorker (timeout : Option Nat) (events : List WorkerEvent) : RaceState :=
  events.foldl (raceStep timeout) (raceInit timeout)

/-- Execution statistics attached to every result. -/
structure ExecStats where
  duration : Nat
  memoryUsed : Int

/-- The public `ExecutionResult` contract. -/
structure ExecutionResult where
  success : Bool
  output : Option JsValue
  logs : List String
  error : Option String
  stats : ExecStats

/-- Everything environmental that one `execute` call can encounter: the
fragment's behaviour, whether staging the temporary source file rejected,
the chronological worker events the parent observes, and the wall-clock
time elapsed when the call returns. -/
structure ExecCall where
  fragment : Fragment
  writeFileError : Option JsError
  events : List WorkerEvent
  elapsed : Nat

/-- `CodeExecutor.execute`.  The `try` block wraps the code, stages the
temporary file (a rejection of `writeFile` throws straight to the `catch`),
and awaits `executeInWorker`; a rejection of that promise also throws to
the `catch`, which returns `{success: false, error: error.message, logs,
stats}` where `logs` is the host-side buffer that nothing ever appends to
(so it is empty).  A resolution is branched on `result.success`; in both
branches `result.logs || logs` is `result.logs`, because every wrapper
message carries a logs array and even an empty JavaScript array is truthy.
`none` means the call never returns (the promise never settles).  -/
def CodeExecutor.execute (timeout : Option Nat) (call : ExecCall) : Option ExecutionResult :=
  match call.writeFileError with
  | some e =>
      some { success := false, output := none, logs := [],
             error := some e.message, stats := ⟨call.elapsed, 0⟩ }
  | none =>
      match (CodeExecutor.executeInWorker timeout call.events).settled with
      | none => none
      | some (Except.error e) =>
          some { success := false, output := none, logs := [],
                 error := some e.message, stats := ⟨call.elapsed, 0⟩ }
      | some (Except.ok m) =>
          if m.success then
            some { success := true, output := m.output, logs := m.logs,
                   error := none, stats := ⟨call.elapsed, m.memoryUsed.getD 0⟩ }
          else
            some { success := false, output := none, logs := m.logs,
                   error := m.error, stats := ⟨call.elapsed, m.memoryUsed.getD 0⟩ }

/-- Whether the temporary source file staged for this call is still on disk
after `execute` returns.  The `unlink` sits after the `await` of
`executeInWorker` with no `finally`, so it only runs when that promise
resolves; a rejection (timeout, worker error, non-zero exit) jumps to the
`catch` and skips it.  When `writeFile` itself rejected, no file was
staged. -/
def tempFileRemains (timeout : Option Nat) (call : ExecCall) : Bool :=
  match call.writeFileError with
  | some _ => false
  | none =>
      match (CodeExecutor.executeInWorker timeout call.events).settled with
      | some (Except.ok _) => false
      | _ => true

/-- Environment constraint: every message event observed for this call was
posted by the wrapped fragment (for some heap readings), i.e. messages do
not appear out of thin air. -/
def MessagesFromWrapper (f : Fragment) (events : List WorkerEvent) : Prop :=
  ∀ m, WorkerEvent.message m ∈ events →
    ∃ b a : Int, runWrapped f b a = WorkerReport.posts m

/-- Environment constraint: the platform never reports an error object with
an empty message (neither for a failed `writeFile` nor for a worker
`error` event). -/
def EnvErrorsNonEmpty (call : ExecCall) : Prop :=
  (∀ e, call.writeFileError = some e → e.message ≠ "") ∧
  (∀ e, WorkerEvent.errored e ∈ call.events → e.message ≠ "")

/-- `SimpleSandbox.execute` (the weak, in-process tier): all three console
channels feed the same unprefixed capture, a completed run returns
`{success: true, logs, stats}` with no `output` and no `error` field, a
throw returns `{success: false, error: message + '\n' + stack, logs}`, and
a fragment that hangs never returns (no timeout exists in this tier). -/
def SimpleSandbox.execute (f : Fragment) (elapsed : Nat) : Option ExecutionResult :=
  match f.termination with
  | .completes =>
      some { success := true, output := none, logs := f.events.map simpleCapture,
             error := none, stats := ⟨elapsed, 0⟩ }
  | .throws m st =>
      some { success := false, output := none, logs := f.events.map simpleCapture,
             error := some (m ++ "\n" ++ st), stats := ⟨elapsed, 0⟩ }
  | .hangs => none

/-! ### Helper lemmas about the settlement race -/

/-- `settleWith` never changes `timerActive`. -/
@[simp] theorem settleWith_timerActive (o : Except JsError WorkerMessage) (st : RaceState) :
    (settleWith o st).timerActive = st.timerActive := by
  unfold settleWith
  cases st.settled <;> simp

/-- `settleWith` never changes `terminateCalled`. -/
@[simp] theorem settleWith_terminateCalled (o : Except JsError WorkerMessage) (st : RaceState) :
    (settleWith o st).terminateCalled = st.terminateCalled := by
  unfold settleWith
  cases st.settled <;> simp

/-- `settleWith` never changes `workerStopped`. -/
@[simp] theorem settleWith_workerStopped (o : Except JsError WorkerMessage) (st : RaceState) :
    (settleWith o st).workerStopped = st.workerStopped := by
  unfold settleWith
  cases st.settled <;> simp

/-- Settling an unsettled promise records the outcome. -/
theorem settleWith_settled_of_none (o : Except JsError WorkerMessage) (st : RaceState)
    (h : st.settled = none) : (settleWith o st).settled = some o := by
  simp [settleWith, h]

/-- A second settlement attempt is ignored. -/
theorem settleWith_settled_of_some (o x : Except JsError WorkerMessage) (st : RaceState)
    (h : st.settled = some x) : (settleWith o st).settled = some x := by
  simp [settleWith, h]

/-- Whatever `settleWith` records is the old outcome or, when there was
none, the new one. -/
theorem settleWith_settled_eq (o y : Except JsError WorkerMessage) (st : RaceState)
    (h : (settleWith o st).settled = some y) :
    st.settled = some y ∨ (st.settled = none ∧ y = o) := by
  by_cases hs : st.settled = none
  · have h2 := (settleWith_settled_of_none o st hs).symm.trans h
    exact Or.inr ⟨hs, (Option.some.inj h2).symm⟩
  · rcases Option.ne_none_iff_exists'.mp hs with ⟨x, hx⟩
    have h2 := (settleWith_settled_of_some o x st hx).symm.trans h
    exact Or.inl (hx.trans h2)

/-- A settled promise stays settled with the same outcome across one more
event. -/
theorem raceStep_settled_persists (timeout : Option Nat) (st : RaceState) (ev : WorkerEvent)
    (x : Except JsError WorkerMessage) (h : st.settled = some x) :
    (raceStep timeout st ev).settled = some x := by
  cases ev with
  | message m => simp [raceStep, settleWith, h]
  | errored e => simp [raceStep, settleWith, h]
  | exited c => by_cases hc : c ≠ 0 <;> simp [raceStep, settleWith, h, hc]
  | timerFired =>
      by_cases ht : st.timerActive
      · cases timeout <;> simp [raceStep, settleWith, h, ht]
      · simp [raceStep, h, ht]

/-- A settled promise stays settled with the same outcome across any later
events (JavaScript promises resolve at most once; the first settlement
wins). -/
theorem foldl_settled_persists (timeout : Option Nat) (events : List WorkerEvent)
    (st : RaceState) (x : Except JsError WorkerMessage) (h : st.settled = some x) :
    (events.foldl (raceStep timeout) st).settled = some x := by
  induction events generalizing st with
  | nil => exact h
  | cons ev rest ih => exact ih _ (raceStep_settled_persists timeout st ev x h)

/-- Once `worker.terminate()` has been called, it stays called. -/
theorem raceStep_terminate_persists (timeout : Option Nat) (st : RaceState) (ev : WorkerEvent)
    (h : st.terminateCalled = true) : (raceStep timeout st ev).terminateCalled = true := by
  cases ev with
  | message m => simp [raceStep]
  | errored e => simp [raceStep, h]
  | exited c => by_cases hc : c ≠ 0 <;> simp [raceStep, hc, h]
  | timerFired =>
      by_cases ht : st.timerActive
      · cases timeout <;> simp [raceStep, ht, h]
      · simp [raceStep, ht, h]

/-- `terminateCalled` persists across any later events. -/
theorem foldl_terminate_persists (timeout : Option Nat) (events : List WorkerEvent)
    (st : RaceState) (h : st.terminateCalled = true) :
    (events.foldl (raceStep timeout) st).terminateCalled = true := by
  induction events generalizing st with
  | nil => exact h
  | cons ev rest ih => exact ih _ (raceStep_terminate_persists timeout st ev h)

/-- A stopped worker stays stopped. -/
theorem raceStep_stopped_persists (timeout : Option Nat) (st : RaceState) (ev : WorkerEvent)
    (h : st.workerStopped = true) : (raceStep timeout st ev).workerStopped = true := by
  cases ev with
  | message m => simp [raceStep]
  | errored e => simp [raceStep]
  | exited c => by_cases hc : c ≠ 0 <;> simp [raceStep, hc]
  | timerFired =>
      by_cases ht : st.timerActive
      · cases timeout <;> simp [raceStep, ht, h]
      · simp [raceStep, ht, h]

/-- `workerStopped` persists across any later events. -/
theorem foldl_stopped_persists (timeout : Option Nat) (events : List WorkerEvent)
    (st : RaceState) (h : st.workerStopped = true) :
    (events.foldl (raceStep timeout) st).workerStopped = true := by
  induction events generalizing st with
  | nil => exact h
  | cons ev rest ih => exact ih _ (raceStep_stopped_persists timeout st ev h)

/-- Each single event that settles the race also leaves the worker
stopped. -/
theorem raceStep_settled_stopped (timeout : Option Nat) (st : RaceState) (ev : WorkerEvent)
    (h : st.settled.isSome = true → st.workerStopped = true)
    (hs : (raceStep timeout st ev).settled.isSome = true) :
    (raceStep timeout st ev).workerStopped = true := by
  cases ev with
  | message m => simp [raceStep]
  | errored e => simp [raceStep]
  | exited c => by_cases hc : c ≠ 0 <;> simp [raceStep, hc]
  | timerFired =>
      by_cases ht : st.timerActive
      · cases timeout with
        | some t => simp [raceStep, ht]
        | none => simp only [raceStep, ht, if_true] at hs ⊢; exact h hs
      · simp only [raceStep, ht, Bool.false_eq_true, if_false] at hs ⊢; exact h hs

/-- Whenever the race is settled, the worker is no longer running. -/
theorem foldl_settled_stopped (timeout : Option Nat) (events : List WorkerEvent)
    (st : RaceState) (h : st.settled.isSome = true → st.workerStopped = true)
    (hs : (events.foldl (raceStep timeout) st).settled.isSome = true) :
    (events.foldl (raceStep timeout) st).workerStopped = true := by
  induction events generalizing st with
  | nil => exact h hs
  | cons ev rest ih => exact ih _ (raceStep_settled_stopped timeout st ev h) hs

/-- A resolution with a worker message can only have come from a `message`
event. -/
theorem raceStep_ok_source (timeout : Option Nat) (st : RaceState) (ev : WorkerEvent)
    (m : WorkerMessage) (h : (raceStep timeout st ev).settled = some (Except.ok m)) :
    st.settled = some (Except.ok m) ∨ ev = WorkerEvent.message m := by
  cases ev with
  | message m2 =>
      rw [raceStep_message] at h
      rcases settleWith_settled_eq _ _ _ h with h2 | ⟨_, h2⟩
      · exact Or.inl h2
      · cases h2
        exact Or.inr rfl
  | errored e =>
      rw [raceStep_errored] at h
      rcases settleWith_settled_eq _ _ _ h with h2 | ⟨_, h2⟩
      · exact Or.inl h2
      · cases h2
  | exited c =>
      rw [raceStep_exited] at h
      by_cases hc : c ≠ 0
      · rw [if_pos hc] at h
        rcases settleWith_settled_eq _ _ _ h with h2 | ⟨_, h2⟩
        · exact Or.inl h2
        · cases h2
      · rw [if_neg hc] at h
        exact Or.inl h
  | timerFired =>
      rw [raceStep_timerFired] at h
      by_cases ht : st.timerActive
      · rw [if_pos ht] at h
        cases timeout with
        | some t =>
            rcases settleWith_settled_eq _ _ _ h with h2 | ⟨_, h2⟩
            · exact Or.inl h2
            · cases h2
        | none => exact Or.inl h
      · rw [if_neg ht] at h
        exact Or.inl h

/-- Any message resolution of the whole race names a message that actually
arrived as an event. -/
theorem foldl_ok_source (timeout : Option Nat) (events : List WorkerEvent)
    (st : RaceState) (m : WorkerMessage)
    (h : (events.foldl (raceStep timeout) st).settled = some (Except.ok m)) :
    st.settled = some (Except.ok m) ∨ WorkerEvent.message m ∈ events := by
  induction events generalizing st with
  | nil => exact Or.inl h
  | cons ev rest ih =>
      rcases ih _ h with h2 | h2
      · rcases raceStep_ok_source timeout st ev m h2 with h3 | h3
        · exact Or.inl h3
        · exact Or.inr (h3 ▸ List.mem_cons_self _ _)
      · exact Or.inr (List.mem_cons_of_mem _ h2)

/-- A rejection can only be a worker `error` event's error, the timeout
error, or an exit-code error. -/
theorem raceStep_error_source (timeout : Option Nat) (st : RaceState) (ev : WorkerEvent)
    (e : JsError) (h : (raceStep timeout st ev).settled = some (Except.error e)) :
    st.settled = some (Except.error e) ∨ ev = WorkerEvent.errored e ∨
      (∃ t, timeout = some t ∧ e = timeoutError t) ∨ (∃ c, e = exitCodeError c) := by
  cases ev with
  | message m2 =>
      rw [raceStep_message] at h
      rcases settleWith_settled_eq _ _ _ h with h2 | ⟨_, h2⟩
      · exact Or.inl h2
      · cases h2
  | errored e2 =>
      rw [raceStep_errored] at h
      rcases settleWith_settled_eq _ _ _ h with h2 | ⟨_, h2⟩
      · exact Or.inl h2
      · cases h2
        exact Or.inr (Or.inl rfl)
  | exited c =>
      rw [raceStep_exited] at h
      by_cases hc : c ≠ 0
      · rw [if_pos hc] at h
        rcases settleWith_settled_eq _ _ _ h with h2 | ⟨_, h2⟩
        · exact Or.inl h2
        · cases h2
          exact Or.inr (Or.inr (Or.inr ⟨c, rfl⟩))
      · rw [if_neg hc] at h
        exact Or.inl h
  | timerFired =>
      rw [raceStep_timerFired] at h
      by_cases ht : st.timerActive
      · rw [if_pos ht] at h
        cases timeout with
        | some t =>
            rcases settleWith_settled_eq _ _ _ h with h2 | ⟨_, h2⟩
            · exact Or.inl h2
            · cases h2
              exact Or.inr (Or.inr (Or.inl ⟨t, rfl, rfl⟩))
        | none => exact Or.inl h
      · rw [if_neg ht] at h
        exact Or.inl h

/-- Any rejection of the whole race is an observed worker error, the
timeout error, or an exit-code error. -/
theorem foldl_error_source (timeout : Option Nat) (events : List WorkerEvent)
    (st : RaceState) (e : JsError)
    (h : (events.foldl (raceStep timeout) st).settled = some (Except.error e)) :
    st.settled = some (Except.error e) ∨ WorkerEvent.errored e ∈ events ∨
      (∃ t, timeout = some t ∧ e = timeoutError t) ∨ (∃ c, e = exitCodeError c) := by
  induction events generalizing st with
  | nil => exact Or.inl h
  | cons ev rest ih =>
      rcases ih _ h with h2 | h2 | h2 | h2
      · rcases raceStep_error_source timeout st ev e h2 with h3 | h3 | h3 | h3
        · exact Or.inl h3
        · exact Or.inr (Or.inl (h3 ▸ List.mem_cons_self _ _))
        · exact Or.inr (Or.inr (Or.inl h3))
        · exact Or.inr (Or.inr (Or.inr h3))
      · exact Or.inr (Or.inl (List.mem_cons_of_mem _ h2))
      · exact Or.inr (Or.inr (Or.inl h2))
      · exact Or.inr (Or.inr (Or.inr h2))

/-- A race whose first event is a posted message resolves with exactly that
message. -/
theorem race_first_message (timeout : Option Nat) (m : WorkerMessage)
    (rest : List WorkerEvent) :
    (CodeExecutor.executeInWorker timeout (WorkerEvent.message m :: rest)).settled =
      some (Except.ok m) := by
  unfold CodeExecutor.executeInWorker
  rw [List.foldl_cons]
  exact foldl_settled_persists _ _ _ _
    (settleWith_settled_of_none _ _ (by simp [raceInit]))

/-- The timeout error's text is never empty. -/
theorem timeoutError_message_ne (t : Nat) : (timeoutError t).message ≠ "" := by
  intro h
  have h2 := congrArg String.length h
  simp [timeoutError, String.length_append] at h2
  exact absurd h2.2 (by decide)

/-- The exit-code error's text is never empty. -/
theorem exitCodeError_message_ne (c : Nat) : (exitCodeError c).message ≠ "" := by
  intro h
  have h2 := congrArg String.length h
  simp [exitCodeError, String.length_append] at h2
  exact absurd h2.1 (by decide)

/-- The wrapper's `message + '\n' + stack` error text is never empty. -/
theorem wrapError_ne (m st : String) : m ++ "\n" ++ st ≠ "" := by
  intro h
  have h2 := congrArg String.length h
  simp [String.length_append] at h2
  exact absurd h2.1.2 (by decide)

/-- The thrown message sits inside the wrapper's `message + '\n' + stack`
error text. -/
theorem wrapError_contains (msg stack : String) :
    msg ++ "\n" ++ stack = "" ++ msg ++ ("\n" ++ stack) := by
  apply String.ext
  simp [String.data_append]

/-! ### Claim theorems -/

/-- C1: a non-throwing fragment that calls `console.log` with argument
lists `v1..vn` in order — for any count, zero included — makes `execute`
return `success = true`, no error, and `logs` equal to the textual
renderings of `v1..vn` in that exact order (objects as their JSON
serialization, other values via `String(...)`, multiple arguments of one
call joined by a single space). -/
theorem c1_log_capture (vs : List (List JsValue)) (f : Fragment) (hb ha : Int)
    (call : ExecCall) (rest : List WorkerEvent) (timeout : Option Nat)
    (hev : f.events = vs.map ConsoleEvent.log)
    (hterm : f.termination = Termination.completes)
    (hwf : call.writeFileError = none)
    (hrun : ∃ m, runWrapped f hb ha = WorkerReport.posts m ∧
      call.events = WorkerEvent.message m :: rest) :
    ∃ r, CodeExecutor.execute timeout call = some r ∧
      r.success = true ∧ r.error = none ∧ r.logs = vs.map renderArgs := by
  obtain ⟨m, hm, hevents⟩ := hrun
  simp only [runWrapped, hterm] at hm
  cases hm
  have hs := race_first_message timeout
    { success := true, output := some JsValue.nullV, error := none,
      logs := wrapCodeLogs f, memoryUsed := some (ha - hb) } rest
  rw [← hevents] at hs
  refine ⟨{ success := true, output := some JsValue.nullV, logs := wrapCodeLogs f,
            error := none, stats := ⟨call.elapsed, ha - hb⟩ }, ?_, rfl, rfl, ?_⟩
  · simp [CodeExecutor.execute, hwf, hs]
  · show wrapCodeLogs f = vs.map renderArgs
    rw [wrapCodeLogs, hev, List.map_map]
    rfl

/-- Closed instance of C1: the scenario
`execute("console.log('A'); console.log('B');")`. -/
def c1Fragment : Fragment :=
  ⟨[.log [.str "A"], .log [.str "B"]], .completes⟩

/-- The outcome message the wrapper posts for `c1Fragment` (heap readings
both 0). -/
def c1Msg : WorkerMessage :=
  ⟨true, some .nullV, none, ["A", "B"], some 0⟩

/-- The healthy run of `c1Fragment`: staging succeeds and the worker posts
its message. -/
def c1Call : ExecCall := ⟨c1Fragment, none, [.message c1Msg], 5⟩

/-- Witness for C1: `execute("console.log('A'); console.log('B');")`
returns `success: true`, `logs: ["A", "B"]` and no error. -/
theorem c1_log_capture_witness :
    ∃ r, CodeExecutor.execute none c1Call = some r ∧
      r.success = true ∧ r.error = none ∧ r.logs = ["A", "B"] := by
  obtain ⟨r, h1, h2, h3, h4⟩ :=
    c1_log_capture [[.str "A"], [.str "B"]] c1Fragment 0 0 c1Call [] none rfl rfl rfl
      ⟨c1Msg, rfl, rfl⟩
  exact ⟨r, h1, h2, h3, by rw [h4]; rfl⟩

/-- C2: a fragment that throws `Error(msg)` (with some stack trace) makes
`execute` return `success = false` with an error string
`message + '\n' + stack` that contains the thrown message as a substring,
and the failure arrives as the worker's posted outcome message (the race
resolves with `Except.ok` of the wrapper's error report — the unit does not
crash unreported). -/
theorem c2_thrown_error (msg stack : String) (f : Fragment) (hb ha : Int)
    (call : ExecCall) (rest : List WorkerEvent) (timeout : Option Nat)
    (hterm : f.termination = Termination.throws msg stack)
    (hwf : call.writeFileError = none)
    (hrun : ∃ m, runWrapped f hb ha = WorkerReport.posts m ∧
      call.events = WorkerEvent.message m :: rest) :
    ∃ r, CodeExecutor.execute timeout call = some r ∧
      r.success = false ∧ r.error = some (msg ++ "\n" ++ stack) ∧
      (∃ p q, r.error = some (p ++ msg ++ q)) ∧
      (CodeExecutor.executeInWorker timeout call.events).settled =
        some (Except.ok
          { success := false, output := none,
            error := some (msg ++ "\n" ++ stack),
            logs := wrapCodeLogs f, memoryUsed := none }) := by
  obtain ⟨m, hm, hevents⟩ := hrun
  simp only [runWrapped, hterm] at hm
  cases hm
  have hs := race_first_message timeout
    { success := false, output := none, error := some (msg ++ "\n" ++ stack),
      logs := wrapCodeLogs f, memoryUsed := none } rest
  rw [← hevents] at hs
  refine ⟨{ success := false, output := none, logs := wrapCodeLogs f,
            error := some (msg ++ "\n" ++ stack), stats := ⟨call.elapsed, 0⟩ },
    ?_, rfl, rfl, ⟨"", "\n" ++ stack, ?_⟩, hs⟩
  · simp [CodeExecutor.execute, hwf, hs]
  · show some (msg ++ "\n" ++ stack) = some ("" ++ msg ++ ("\n" ++ stack))
    rw [wrapError_contains msg stack]

/-- Closed instance of C2: the scenario
`execute("throw new Error('boom')")`. -/
def c2Fragment : Fragment :=
  ⟨[], .throws "boom" "Error: boom\n    at [eval]:1:7"⟩

/-- The outcome message the wrapper posts for `c2Fragment`. -/
def c2Msg : WorkerMessage :=
  ⟨false, none, some ("boom" ++ "\n" ++ "Error: boom\n    at [eval]:1:7"), [], none⟩

/-- The run of `c2Fragment`: staging succeeds and the worker posts its
error report. -/
def c2Call : ExecCall := ⟨c2Fragment, none, [.message c2Msg], 3⟩

/-- Witness for C2: `execute("throw new Error('boom')")` returns
`success: false` with an error containing `"boom"`. -/
theorem c2_thrown_error_witness :
    ∃ r, CodeExecutor.execute none c2Call = some r ∧
      r.success = false ∧ (∃ p q, r.error = some (p ++ "boom" ++ q)) := by
  obtain ⟨r, h1, h2, _, h4, _⟩ :=
    c2_thrown_error "boom" "Error: boom\n    at [eval]:1:7" c2Fragment 0 0 c2Call [] none
      rfl rfl ⟨c2Msg, rfl, rfl⟩
  exact ⟨r, h1, h2, h4⟩

/-- C3: when the deadline timer fires before the unit resolves (with a
configured, truthy timeout `t`), `worker.terminate()` is called, `execute`
returns `success = false` with the error text
`"Execution timeout after " ++ t ++ "ms"` — which contains both the
configured duration and the word `"timeout"` — and the race is settled with
the timeout rejection and with no unit message: the two outcomes are
mutually exclusive, first event wins. -/
theorem c3_deadline (t : Nat) (call : ExecCall) (rest : List WorkerEvent)
    (ht : t ≠ 0)
    (hwf : call.writeFileError = none)
    (hev : call.events = WorkerEvent.timerFired :: rest) :
    (CodeExecutor.executeInWorker (some t) call.events).terminateCalled = true ∧
    (CodeExecutor.executeInWorker (some t) call.events).settled =
      some (Except.error (timeoutError t)) ∧
    (∀ m, (CodeExecutor.executeInWorker (some t) call.events).settled ≠
      some (Except.ok m)) ∧
    ∃ r, CodeExecutor.execute (some t) call = some r ∧
      r.success = false ∧
      r.error = some ("Execution timeout after " ++ toString t ++ "ms") ∧
      (∃ p q, r.error = some (p ++ toString t ++ q)) ∧
      (∃ p q, r.error = some (p ++ "timeout" ++ q)) := by
  have hact : (raceInit (some t)).timerActive = true := by
    simp [raceInit, timeoutSet, ht]
  have hstep : raceStep (some t) (raceInit (some t)) .timerFired =
      settleWith (.error (timeoutError t))
        { raceInit (some t) with
          timerActive := false, terminateCalled := true, workerStopped := true } := by
    rw [raceStep_timerFired, if_pos hact]
  have hsettled : (CodeExecutor.executeInWorker (some t) call.events).settled =
      some (Except.error (timeoutError t)) := by
    rw [hev]
    unfold CodeExecutor.executeInWorker
    rw [List.foldl_cons, hstep]
    exact foldl_settled_persists _ _ _ _
      (settleWith_settled_of_none _ _ (by simp [raceInit]))
  have hterm2 : (CodeExecutor.executeInWorker (some t) call.events).terminateCalled = true := by
    rw [hev]
    unfold CodeExecutor.executeInWorker
    rw [List.foldl_cons, hstep]
    exact foldl_terminate_persists _ _ _ (by simp)
  refine ⟨hterm2, hsettled, ?_, ?_⟩
  · intro m hcontra
    rw [hsettled] at hcontra
    exact Except.noConfusion (Option.some.inj hcontra)
  · refine
      ⟨{ success := false, output := none, logs := [],
         error := some ("Execution timeout after " ++ toString t ++ "ms"),
         stats := ⟨call.elapsed, 0⟩ },
        ?_, rfl, rfl, ⟨"Execution timeout after ", "ms", rfl⟩,
        ⟨"Execution ", " after " ++ toString t ++ "ms", ?_⟩⟩
    · simp only [CodeExecutor.execute, hwf, hsettled, timeoutError]
    · show some ("Execution timeout after " ++ toString t ++ "ms") =
        some ("Execution " ++ "timeout" ++ (" after " ++ toString t ++ "ms"))
      rfl

/-- Closed instance of C3: the scenario
`execute("while(true){}", {timeout: 200})` — the fragment hangs and the
deadline fires. -/
def c3Call : ExecCall := ⟨⟨[], .hangs⟩, none, [.timerFired], 200⟩

/-- Witness for C3: the 200 ms deadline run returns `success: false` with
the error `"Execution timeout after 200ms"`, and the worker was
terminated. -/
theorem c3_deadline_witness :
    (CodeExecutor.executeInWorker (some 200) c3Call.events).terminateCalled = true ∧
    ∃ r, CodeExecutor.execute (some 200) c3Call = some r ∧
      r.success = false ∧ r.error = some "Execution timeout after 200ms" := by
  obtain ⟨h1, _, _, r, h4, h5, h6, _⟩ :=
    c3_deadline 200 c3Call [] (by decide) rfl rfl
  exact ⟨h1, r, h4, h5, by rw [h6]; rfl⟩

/-- C4: every fault is returned as a normal, normalized `ExecutionResult`,
never as an escaping exception (in this embedding `execute` is total on
settling runs and its only non-`some` case is a call that never returns —
there is no exception channel).  A staging (`writeFile`) failure and any
rejection of the worker promise (timeout, worker environment error,
non-zero exit) become `{success: false, error: message, logs: [],
stats: {duration, memoryUsed: 0}}`; a user-code error reported by the unit
becomes `{success: false, error, logs}` with the unit's own report. -/
theorem c4_normalized_failures (timeout : Option Nat) (call : ExecCall) :
    (∀ e, call.writeFileError = some e →
      CodeExecutor.execute timeout call =
        some { success := false, output := none, logs := [],
               error := some e.message, stats := ⟨call.elapsed, 0⟩ }) ∧
    (∀ e, call.writeFileError = none →
      (CodeExecutor.executeInWorker timeout call.events).settled =
        some (Except.error e) →
      CodeExecutor.execute timeout call =
        some { success := false, output := none, logs := [],
               error := some e.message, stats := ⟨call.elapsed, 0⟩ }) ∧
    (∀ m, call.writeFileError = none →
      (CodeExecutor.executeInWorker timeout call.events).settled =
        some (Except.ok m) → m.success = false →
      CodeExecutor.execute timeout call =
        some { success := false, output := none, logs := m.logs,
               error := m.error, stats := ⟨call.elapsed, m.memoryUsed.getD 0⟩ }) := by
  refine ⟨?_, ?_, ?_⟩
  · intro e he
    simp [CodeExecutor.execute, he]
  · intro e he hs
    simp [CodeExecutor.execute, he, hs]
  · intro m he hs hm
    simp [CodeExecutor.execute, he, hs, hm]

/-- A call whose temp-file staging fails. -/
def c4CallA : ExecCall :=
  ⟨⟨[], .completes⟩, some ⟨"ENOENT: no such file or directory"⟩, [], 1⟩

/-- A call whose worker raises an environment-level error. -/
def c4CallB : ExecCall :=
  ⟨⟨[], .hangs⟩, none, [.errored ⟨"SyntaxError: Unexpected token"⟩], 2⟩

/-- A call whose fragment throws and whose worker posts the error report. -/
def c4CallC : ExecCall :=
  ⟨⟨[], .throws "x" "s"⟩, none,
    [.message ⟨false, none, some ("x" ++ "\n" ++ "s"), [], none⟩], 3⟩

/-- Witness for C4: the three fault families at concrete inputs, each
normalized to a `success: false` result carrying the fault's message. -/
theorem c4_normalized_failures_witness :
    CodeExecutor.execute none c4CallA =
      some { success := false, output := none, logs := [],
             error := some "ENOENT: no such file or directory", stats := ⟨1, 0⟩ } ∧
    CodeExecutor.execute none c4CallB =
      some { success := false, output := none, logs := [],
             error := some "SyntaxError: Unexpected token", stats := ⟨2, 0⟩ } ∧
    CodeExecutor.execute none c4CallC =
      some { success := false, output := none, logs := [],
             error := some ("x" ++ "\n" ++ "s"), stats := ⟨3, 0⟩ } :=
  ⟨(c4_normalized_failures none c4CallA).1 ⟨"ENOENT: no such file or directory"⟩ rfl,
   (c4_normalized_failures none c4CallB).2.1 ⟨"SyntaxError: Unexpected token"⟩ rfl rfl,
   (c4_normalized_failures none c4CallC).2.2
     ⟨false, none, some ("x" ++ "\n" ++ "s"), [], none⟩ rfl rfl rfl⟩

/-- C5: for every result `execute` returns (under the environment facts
that platform error objects carry non-empty messages and that observed
worker messages really were posted by the wrapped fragment):
`success = true` implies the `error` field is absent, and `success = false`
implies `error` holds a non-empty string. -/
theorem c5_error_presence (timeout : Option Nat) (call : ExecCall) (r : ExecutionResult)
    (henv : EnvErrorsNonEmpty call)
    (hmsg : MessagesFromWrapper call.fragment call.events)
    (hr : CodeExecutor.execute timeout call = some r) :
    (r.success = true → r.error = none) ∧
    (r.success = false → ∃ e, r.error = some e ∧ e ≠ "") := by
  cases hwf : call.writeFileError with
  | some e =>
      simp only [CodeExecutor.execute, hwf] at hr
      obtain rfl := Option.some.inj hr
      refine ⟨fun h => Bool.noConfusion h, ?_⟩
      intro _
      exact ⟨e.message, rfl, henv.1 e hwf⟩
  | none =>
      cases hst : (CodeExecutor.executeInWorker timeout call.events).settled with
      | none =>
          simp only [CodeExecutor.execute, hwf, hst] at hr
          exact Option.noConfusion hr
      | some o =>
          cases o with
          | error e =>
              simp only [CodeExecutor.execute, hwf, hst] at hr
              obtain rfl := Option.some.inj hr
              refine ⟨fun h => Bool.noConfusion h, ?_⟩
              intro _
              refine ⟨e.message, rfl, ?_⟩
              unfold CodeExecutor.executeInWorker at hst
              rcases foldl_error_source timeout call.events (raceInit timeout) e hst with
                h2 | h2 | ⟨t, _, rfl⟩ | ⟨c, rfl⟩
              · simp [raceInit] at h2
              · exact henv.2 e h2
              · exact timeoutError_message_ne t
              · exact exitCodeError_message_ne c
          | ok m =>
              have hmem : WorkerEvent.message m ∈ call.events := by
                unfold CodeExecutor.executeInWorker at hst
                rcases foldl_ok_source timeout call.events (raceInit timeout) m hst with h2 | h2
                · simp [raceInit] at h2
                · exact h2
              obtain ⟨b, a, hrw⟩ := hmsg m hmem
              cases hms : m.success with
              | true =>
                  simp only [CodeExecutor.execute, hwf, hst, hms, if_true] at hr
                  obtain rfl := Option.some.inj hr
                  exact ⟨fun _ => rfl, fun h => Bool.noConfusion h⟩
              | false =>
                  simp only [CodeExecutor.execute, hwf, hst, hms, Bool.false_eq_true,
                    if_false] at hr
                  obtain rfl := Option.some.inj hr
                  refine ⟨fun h => Bool.noConfusion h, ?_⟩
                  intro _
                  cases hterm : call.fragment.termination with
                  | completes =>
                      simp only [runWrapped, hterm] at hrw
                      cases hrw
                      cases hms
                  | throws ms st =>
                      simp only [runWrapped, hterm] at hrw
                      cases hrw
                      exact ⟨ms ++ "\n" ++ st, rfl, wrapError_ne ms st⟩
                  | hangs =>
                      simp only [runWrapped, hterm] at hrw
                      cases hrw

/-- A concrete throwing run for the C5 witness. -/
def c5Call : ExecCall :=
  ⟨⟨[], .throws "oops" "stacktrace"⟩, none,
    [.message ⟨false, none, some ("oops" ++ "\n" ++ "stacktrace"), [], none⟩], 1⟩

/-- The result of `c5Call`. -/
def c5Result : ExecutionResult :=
  { success := false, output := none, logs := [],
    error := some ("oops" ++ "\n" ++ "stacktrace"), stats := ⟨1, 0⟩ }

/-- Witness for C5: on the concrete failing run, the returned `error` is a
non-empty string. -/
theorem c5_error_presence_witness :
    (c5Result.success = true → c5Result.error = none) ∧
    (c5Result.success = false → ∃ e, c5Result.error = some e ∧ e ≠ "") := by
  refine c5_error_presence none c5Call c5Result ⟨?_, ?_⟩ ?_ rfl
  · intro e h
    simp [c5Call] at h
  · intro e h
    simp [c5Call] at h
  · intro m hm
    simp [c5Call] at hm
    subst hm
    exact ⟨0, 0, rfl⟩

/-- A deadline run of a hanging fragment: staging succeeds, the timer
fires. -/
def c6Call : ExecCall := ⟨⟨[], .hangs⟩, none, [.timerFired], 200⟩

/-- C6 counterexample: on the timeout path `execute` returns an outcome,
yet the staged temporary source file is still on disk — the `unlink` sits
after the `await` of the worker promise with no `finally`, so a rejection
skips it.  This refutes removal "on every outcome". -/
theorem c6_cleanup_counterexample :
    (CodeExecutor.execute (some 200) c6Call).isSome = true ∧
    tempFileRemains (some 200) c6Call = true := ⟨rfl, rfl⟩

/-- C6 (amended): the temporary file is removed exactly when the worker
promise resolves with a posted outcome message (success or user-code
error); when staging itself fails no file is left, but on any rejection of
the worker promise — timeout, worker environment error, non-zero exit —
the file remains on disk when `execute` returns. -/
theorem c6_cleanup_amended (timeout : Option Nat) (call : ExecCall) :
    (∀ e, call.writeFileError = some e → tempFileRemains timeout call = false) ∧
    (call.writeFileError = none →
      ((∃ m, (CodeExecutor.executeInWorker timeout call.events).settled =
          some (Except.ok m)) → tempFileRemains timeout call = false) ∧
      ((∃ e, (CodeExecutor.executeInWorker timeout call.events).settled =
          some (Except.error e)) → tempFileRemains timeout call = true)) := by
  refine ⟨?_, ?_⟩
  · intro e he
    simp [tempFileRemains, he]
  · intro hwf
    constructor
    · rintro ⟨m, hm⟩
      simp [tempFileRemains, hwf, hm]
    · rintro ⟨e, he⟩
      simp [tempFileRemains, hwf, he]

/-- A healthy completed run for the C6 witness: the worker posts its
message, so the file is removed. -/
def c6MsgCall : ExecCall :=
  ⟨⟨[], .completes⟩, none, [.message ⟨true, some .nullV, none, [], some 0⟩], 1⟩

/-- Witness for C6 (amended): the file is gone after a message resolution
and still present after a timeout rejection. -/
theorem c6_cleanup_amended_witness :
    tempFileRemains none c6MsgCall = false ∧
    tempFileRemains (some 200) c6Call = true :=
  ⟨((c6_cleanup_amended none c6MsgCall).2 rfl).1
      ⟨⟨true, some .nullV, none, [], some 0⟩, rfl⟩,
   ((c6_cleanup_amended (some 200) c6Call).2 rfl).2 ⟨timeoutError 200, rfl⟩⟩

/-- A deadline run of a fragment that logged "A" before hanging. -/
def c7Call : ExecCall := ⟨⟨[.log [.str "A"]], .hangs⟩, none, [.timerFired], 200⟩

/-- C7 counterexample: the fragment emitted the log line "A" before the
timeout, but the failing result's `logs` is empty — the host-side buffer
returned by the `catch` is never appended to (`executeInWorker` ignores its
`logs` parameter), so logs are lost on the timeout path.  This refutes
preservation "for every failure". -/
theorem c7_logs_counterexample :
    wrapCodeLogs c7Call.fragment = ["A"] ∧
    ∃ r, CodeExecutor.execute (some 200) c7Call = some r ∧
      r.success = false ∧ r.logs = [] ∧ r.logs ≠ wrapCodeLogs c7Call.fragment := by
  refine ⟨rfl, _, rfl, rfl, rfl, ?_⟩
  intro h
  exact List.noConfusion h

/-- C7 (amended): log lines emitted before a user-code error are preserved
in emission order, because they travel inside the worker's outcome message;
but when the worker promise is rejected — timeout or launch-level failure —
the returned `logs` is the host buffer, which is never populated, hence
empty. -/
theorem c7_logs_amended (timeout : Option Nat) (call : ExecCall)
    (hwf : call.writeFileError = none)
    (hmsg : MessagesFromWrapper call.fragment call.events) :
    (∀ m, (CodeExecutor.executeInWorker timeout call.events).settled =
        some (Except.ok m) →
      ∃ r, CodeExecutor.execute timeout call = some r ∧
        r.logs = wrapCodeLogs call.fragment) ∧
    (∀ e, (CodeExecutor.executeInWorker timeout call.events).settled =
        some (Except.error e) →
      ∃ r, CodeExecutor.execute timeout call = some r ∧ r.logs = []) := by
  constructor
  · intro m hst
    have hmem : WorkerEvent.message m ∈ call.events := by
      unfold CodeExecutor.executeInWorker at hst
      rcases foldl_ok_source timeout call.events (raceInit timeout) m hst with h2 | h2
      · simp [raceInit] at h2
      · exact h2
    obtain ⟨b, a, hrw⟩ := hmsg m hmem
    have hlogs : m.logs = wrapCodeLogs call.fragment := by
      cases hterm : call.fragment.termination with
      | completes =>
          simp only [runWrapped, hterm] at hrw
          cases hrw
          rfl
      | throws ms st =>
          simp only [runWrapped, hterm] at hrw
          cases hrw
          rfl
      | hangs =>
          simp only [runWrapped, hterm] at hrw
          cases hrw
    cases hms : m.success with
    | true =>
        refine ⟨{ success := true, output := m.output, logs := m.logs, error := none,
                  stats := ⟨call.elapsed, m.memoryUsed.getD 0⟩ }, ?_, hlogs⟩
        simp [CodeExecutor.execute, hwf, hst, hms]
    | false =>
        refine ⟨{ success := false, output := none, logs := m.logs, error := m.error,
                  stats := ⟨call.elapsed, m.memoryUsed.getD 0⟩ }, ?_, hlogs⟩
        simp [CodeExecutor.execute, hwf, hst, hms]
  · intro e hst
    refine ⟨{ success := false, output := none, logs := [], error := some e.message,
              stats := ⟨call.elapsed, 0⟩ }, ?_, rfl⟩
    simp [CodeExecutor.execute, hwf, hst]

/-- A completed run that logged "A", for the C7 witness. -/
def c7MsgCall : ExecCall :=
  ⟨⟨[.log [.str "A"]], .completes⟩, none,
    [.message ⟨true, some .nullV, none, ["A"], some 0⟩], 1⟩

/-- Witness for C7 (amended): logs survive through the outcome message on
the resolution path, and are empty on the timeout path. -/
theorem c7_logs_amended_witness :
    (∃ r, CodeExecutor.execute none c7MsgCall = some r ∧
      r.logs = wrapCodeLogs c7MsgCall.fragment) ∧
    (∃ r, CodeExecutor.execute (some 200) c7Call = some r ∧ r.logs = []) := by
  refine ⟨(c7_logs_amended none c7MsgCall rfl ?_).1 _ rfl,
          (c7_logs_amended (some 200) c7Call rfl ?_).2 (timeoutError 200) rfl⟩
  · intro m hm
    simp [c7MsgCall] at hm
    subst hm
    exact ⟨0, 0, rfl⟩
  · intro m hm
    simp [c7Call] at hm

/-- C8: whenever the race settles — worker message, worker environment
error, non-zero exit, or timeout — the worker is no longer running: the
code calls `worker.terminate()` on the message and timeout paths, and on
the `error`/`exit` paths the platform has already stopped the thread (an
uncaught exception terminates a worker; an exit event reports a stopped
worker).  No resolution path leaks a live context. -/
theorem c8_worker_terminated (timeout : Option Nat) (events : List WorkerEvent)
    (h : (CodeExecutor.executeInWorker timeout events).settled.isSome = true) :
    (CodeExecutor.executeInWorker timeout events).workerStopped = true := by
  unfold CodeExecutor.executeInWorker at h ⊢
  refine foldl_settled_stopped timeout events (raceInit timeout) ?_ h
  intro hs
  simp [raceInit] at hs

/-- Witness for C8: after a timeout resolution the worker is stopped. -/
theorem c8_worker_terminated_witness :
    (CodeExecutor.executeInWorker (some 200) [WorkerEvent.timerFired]).workerStopped = true :=
  c8_worker_terminated (some 200) [WorkerEvent.timerFired] rfl

/-- C9: the result's `output` never carries a value the unit computed: the
wrapper hardcodes `output: null` in its success report (a user return value
is discarded — "Output should be logged by user code"), so a successful
result's `output` is exactly the null placeholder, and failing results have
no `output` field at all.  In particular a unit that returns nothing yields
no output value. -/
theorem c9_output_placeholder (timeout : Option Nat) (call : ExecCall) (r : ExecutionResult)
    (hmsg : MessagesFromWrapper call.fragment call.events)
    (hr : CodeExecutor.execute timeout call = some r) :
    (r.success = false → r.output = none) ∧
    (r.success = true → r.output = some JsValue.nullV) := by
  cases hwf : call.writeFileError with
  | some e =>
      simp only [CodeExecutor.execute, hwf] at hr
      obtain rfl := Option.some.inj hr
      exact ⟨fun _ => rfl, fun h => Bool.noConfusion h⟩
  | none =>
      cases hst : (CodeExecutor.executeInWorker timeout call.events).settled with
      | none =>
          simp only [CodeExecutor.execute, hwf, hst] at hr
          exact Option.noConfusion hr
      | some o =>
          cases o with
          | error e =>
              simp only [CodeExecutor.execute, hwf, hst] at hr
              obtain rfl := Option.some.inj hr
              exact ⟨fun _ => rfl, fun h => Bool.noConfusion h⟩
          | ok m =>
              have hmem : WorkerEvent.message m ∈ call.events := by
                unfold CodeExecutor.executeInWorker at hst
                rcases foldl_ok_source timeout call.events (raceInit timeout) m hst with
                  h2 | h2
                · simp [raceInit] at h2
                · exact h2
              obtain ⟨b, a, hrw⟩ := hmsg m hmem
              cases hms : m.success with
              | true =>
                  simp only [CodeExecutor.execute, hwf, hst, hms, if_true] at hr
                  obtain rfl := Option.some.inj hr
                  refine ⟨fun h => Bool.noConfusion h, fun _ => ?_⟩
                  show m.output = some JsValue.nullV
                  cases hterm : call.fragment.termination with
                  | completes =>
                      simp only [runWrapped, hterm] at hrw
                      cases hrw
                      rfl
                  | throws ms st =>
                      simp only [runWrapped, hterm] at hrw
                      cases hrw
                      cases hms
                  | hangs =>
                      simp only [runWrapped, hterm] at hrw
                      cases hrw
              | false =>
                  simp only [CodeExecutor.execute, hwf, hst, hms, Bool.false_eq_true,
                    if_false] at hr
                  obtain rfl := Option.some.inj hr
                  exact ⟨fun _ => rfl, fun h => Bool.noConfusion h⟩

/-- A completed run that returns nothing, for the C9 witness. -/
def c9Call : ExecCall :=
  ⟨⟨[], .completes⟩, none, [.message ⟨true, some .nullV, none, [], some 0⟩], 1⟩

/-- The result of `c9Call`. -/
def c9Result : ExecutionResult :=
  { success := true, output := some JsValue.nullV, logs := [],
    error := none, stats := ⟨1, 0⟩ }

/-- Witness for C9: the concrete returns-nothing run yields only the null
placeholder as `output`. -/
theorem c9_output_placeholder_witness :
    (c9Result.success = false → c9Result.output = none) ∧
    (c9Result.success = true → c9Result.output = some JsValue.nullV) := by
  refine c9_output_placeholder none c9Call c9Result ?_ rfl
  intro m hm
  simp [c9Call] at hm
  subst hm
  exact ⟨0, 0, rfl⟩

/-- C10: in the worker tier, `console.error` lines are captured with the
prefix `"ERROR: "` and `console.warn` lines with `"WARN: "`, while the weak
sandbox tier captures all three channels identically with no prefix — so
the same fragment's warning/error output renders differently across the
tiers, as the concrete fragment `console.warn('w'); console.error('e')`
shows: `["w", "e"]` in the weak tier versus `["WARN: w", "ERROR: e"]` in
the worker tier. -/
theorem c10_tier_rendering :
    (∀ args : List JsValue,
      workerCapture (ConsoleEvent.error args) = "ERROR: " ++ renderArgs args ∧
      workerCapture (ConsoleEvent.warn args) = "WARN: " ++ renderArgs args ∧
      workerCapture (ConsoleEvent.log args) = renderArgs args) ∧
    (∀ ev : ConsoleEvent, simpleCapture ev = renderArgs ev.args) ∧
    (∃ f : Fragment, ∃ rs rw2 : ExecutionResult,
      SimpleSandbox.execute f 7 = some rs ∧
      CodeExecutor.execute none
        ⟨f, none, [WorkerEvent.message ⟨true, some .nullV, none, wrapCodeLogs f, some 0⟩],
          7⟩ = some rw2 ∧
      rs.logs = ["w", "e"] ∧ rw2.logs = ["WARN: w", "ERROR: e"]) := by
  refine ⟨fun args => ⟨rfl, rfl, rfl⟩, fun ev => ?_,
    ⟨⟨[.warn [.str "w"], .error [.str "e"]], .completes⟩, _, _, rfl, rfl, rfl, rfl⟩⟩
  cases ev <;> rfl

end Pendo
